import Mathlib

/-!
Shallow embedding of the xshm external shared memory driver interface
(include/linux/xshm/xshm_pdev.h) and of the ring-channel / device-lifecycle
protocol it declares.  The header exports only configuration structures,
constants and function-pointer contracts; the protocol bodies live outside
this tree, so the operational definitions below are modelled from the
specification's description of the protocol, while the data structures,
constants and documented semantics are taken from the header itself.
-/

namespace Xshm

/-- Constant XSHM_NAMESZ from the header: bound on the interface name. -/
def XSHM_NAMESZ : Nat := 16

/-- Constant XSHM_OPEN from the header: shared open-flag value Open. -/
def XSHM_OPEN : Nat := 1

/-- Constant XSHM_CLOSED from the header: shared open-flag value Closed. -/
def XSHM_CLOSED : Nat := 0

/-- Framing mode value PACKET, from the header doc of xshm_channel.mode:
"Configuring type of channel PACKET(1), STREAM(2)". -/
def XSHM_PACKET_MODE : Nat := 1

/-- Framing mode value STREAM, from the header doc of xshm_channel.mode. -/
def XSHM_STREAM_MODE : Nat := 2

/-- Embedding of struct xshm_udchannel: one unidirectional channel.
Pointer fields of the C struct are embedded by value: addr as a numeric
base address, and the shared-region words state/read/write/buf_size by
their numeric contents.  read and write are kept as monotone counters
(the spec directs an unambiguous wraparound encoding; the shared 32-bit
words hold these values modulo 2^32).  The private kobj member is kernel
object glue and carries no protocol state. -/
structure XshmUdchannel where
  addr : Nat
  buffers : Nat
  ch_size : Nat
  xfer_done_bit : Nat
  xfer_bit : Nat
  mtu : Nat
  alignment : Nat
  packets : Nat
  state : Nat
  read : Nat
  write : Nat
  buf_size : List Nat
deriving DecidableEq

/-- Embedding of struct xshm_channel: a duplex channel configuration with
one rx and one tx unidirectional channel, an exclusivity group, a single
framing mode field shared by both directions, a bounded name, priority and
latency. -/
structure XshmChannel where
  rx : XshmUdchannel
  tx : XshmUdchannel
  excl_group : Nat
  mode : Nat
  name : List Nat
  priority : Nat
  latency : Nat
deriving DecidableEq

/-- Embedding of enum xshm_dev_state: XSHM_DEV_CLOSED = 0, XSHM_DEV_OPENING,
XSHM_DEV_OPEN, XSHM_DEV_ACTIVE. -/
inductive XshmDevState where
  | closed
  | opening
  | opened
  | active
deriving DecidableEq

/-- Errors of the ring-channel operations, from the spec's error kinds. -/
inductive RingErr where
  | ChannelFull
  | PayloadTooLarge
  | NothingToRelease
deriving DecidableEq

/-- Modelled from the spec: acquire_write_slot, whose body is not in the
source tree (the header only declares the shared read/write index words).
Valid while the channel has free slots: returns the next free slot index,
or fails with ChannelFull if write_index would overtake read_index.  The
state is unchanged by a mere acquire; commit_write advances the index. -/
def acquire_write_slot (c : XshmUdchannel) : Except RingErr Nat :=
  if c.buffers ≤ c.write - c.read then Except.error RingErr.ChannelFull
  else Except.ok (c.write % c.buffers)

/-- Modelled from the spec: commit_write, whose body is not in the source
tree.  Packet mode bounds the payload to mtu (PayloadTooLarge beyond it);
on success it records the length in the buf_size table entry of the slot
and advances the write index by one. -/
def commit_write (c : XshmUdchannel) (len : Nat) : Except RingErr XshmUdchannel :=
  if c.mtu < len then Except.error RingErr.PayloadTooLarge
  else Except.ok { c with
    write := c.write + 1,
    buf_size := c.buf_size.set (c.write % c.buffers) len }

/-- Modelled from the spec: peek_read_slot, whose body is not in the source
tree.  Returns the slot index at read_index without consuming it, or none
when the channel is empty; it never moves any index. -/
def peek_read_slot (c : XshmUdchannel) : Option Nat :=
  if c.read = c.write then none
  else some (c.read % c.buffers)

/-- Modelled from the spec: release_read_slot, whose body is not in the
source tree.  Advances read_index by one, or fails with NothingToRelease
when read_index equals write_index. -/
def release_read_slot (c : XshmUdchannel) : Except RingErr XshmUdchannel :=
  if c.read = c.write then Except.error RingErr.NothingToRelease
  else Except.ok { c with read := c.read + 1 }

/-- One producer/consumer call on a ring channel: a write is an
acquire_write_slot followed on success by commit_write of the given
length, peek is peek_read_slot, release is release_read_slot. -/
inductive RingOp where
  | wr (len : Nat)
  | peek
  | release
deriving DecidableEq

/-- Sequence semantics of ring operations: a failed call leaves the channel
state unchanged (errors are returned to the caller, not applied). -/
def ringStep (c : XshmUdchannel) (op : RingOp) : XshmUdchannel :=
  match op with
  | RingOp.wr len =>
    match acquire_write_slot c with
    | Except.error _ => c
    | Except.ok _ =>
      match commit_write c len with
      | Except.error _ => c
      | Except.ok c2 => c2
  | RingOp.peek => c
  | RingOp.release =>
    match release_read_slot c with
    | Except.error _ => c
    | Except.ok c2 => c2

/-- Run a list of ring operations from a given channel state. -/
def ringRun (c : XshmUdchannel) (ops : List RingOp) : XshmUdchannel :=
  ops.foldl ringStep c

/-- A freshly opened packet-mode channel: indices zero, empty size table. -/
def initRing (buffers mtu : Nat) : XshmUdchannel :=
  { addr := 0
    buffers := buffers
    ch_size := buffers * mtu
    xfer_done_bit := 0
    xfer_bit := 0
    mtu := mtu
    alignment := 4
    packets := 1
    state := XSHM_CLOSED
    read := 0
    write := 0
    buf_size := List.replicate buffers 0 }

/-- Embedding of struct xshm_dev, restricted to protocol state: the channel
configuration and the lifecycle state.  The platform_device, list node,
private pointer and the function-pointer slots (open, close, ipc callbacks)
are kernel glue and calling convention, not state; the behavior of open and
close is given by the operations below. -/
structure XshmDev where
  cfg : XshmChannel
  state : XshmDevState
deriving DecidableEq

/-- The process-wide transport state: the registered devices together with
the two readiness flags ready_for_ipc and ready_for_caif declared by the
header. -/
structure XshmSys where
  devs : List XshmDev
  ready_for_ipc : Bool
  ready_for_caif : Bool
deriving DecidableEq

/-- Errors of the device-level operations, from the spec's error kinds. -/
inductive DevErr where
  | InvalidConfig
  | ResourceConflict
  | AlreadyClosed
  | DeviceBusy
deriving DecidableEq

/-- Modelled from the spec: the configuration consistency that open()
validates — a legal framing mode (matching between rx and tx is inherent in
the single mode field), sane capacity and alignment in both directions, and
non-overlapping rx/tx memory. -/
def validCfg (c : XshmChannel) : Prop :=
  (c.mode = XSHM_PACKET_MODE ∨ c.mode = XSHM_STREAM_MODE) ∧
  0 < c.rx.buffers ∧ 0 < c.tx.buffers ∧
  0 < c.rx.ch_size ∧ 0 < c.tx.ch_size ∧
  0 < c.rx.alignment ∧ 0 < c.tx.alignment ∧
  (c.rx.addr + c.rx.ch_size ≤ c.tx.addr ∨ c.tx.addr + c.tx.ch_size ≤ c.rx.addr)

instance decValidCfg (c : XshmChannel) : Decidable (validCfg c) := by
  unfold validCfg
  infer_instance

/-- A device counts as open for exclusivity purposes when its lifecycle
state is Open or Active. -/
def devIsOpen (d : XshmDev) : Bool :=
  d.state == XshmDevState.opened || d.state == XshmDevState.active

/-- Exclusivity check, from the header doc of xshm_channel.excl_group:
"Only channels with the same group ID can be open simultaneously."  Hence
opening group g conflicts exactly when some already-open device carries a
different group ID. -/
def exclConflict (devs : List XshmDev) (g : Nat) : Bool :=
  devs.any fun e => devIsOpen e && e.cfg.excl_group != g

/-- Replace the lifecycle state of device d at index i by st. -/
def setDevState (sys : XshmSys) (i : Nat) (d : XshmDev) (st : XshmDevState) : XshmSys :=
  { sys with devs := sys.devs.set i { d with state := st } }

/-- Modelled from the spec: the body of the open() hook of struct xshm_dev
is not in the source tree.  Checks on the device found at index i: allowed
only from Closed, the configuration must be consistent, and no exclusivity
conflict may exist; on success the state becomes Opening, on failure the
system is returned unchanged together with the error. -/
def xshm_open_dev (sys : XshmSys) (i : Nat) (d : XshmDev) : Option DevErr × XshmSys :=
  if d.state ≠ XshmDevState.closed then (some DevErr.InvalidConfig, sys)
  else if ¬ validCfg d.cfg then (some DevErr.InvalidConfig, sys)
  else if exclConflict sys.devs d.cfg.excl_group then (some DevErr.ResourceConflict, sys)
  else (none, setDevState sys i d XshmDevState.opening)

/-- Modelled from the spec: open() on the device at index i of the
registry; an unknown index is an invalid configuration. -/
def xshm_open (sys : XshmSys) (i : Nat) : Option DevErr × XshmSys :=
  match sys.devs.get? i with
  | none => (some DevErr.InvalidConfig, sys)
  | some d => xshm_open_dev sys i d

/-- Modelled from the spec: the body of the close() hook of struct xshm_dev
is not in the source tree.  Allowed from Open or Active: local writes are
disarmed and the device moves to Closed; a close on an already Closed
device fails with AlreadyClosed and changes nothing; a close during the
Opening handshake is refused as busy. -/
def xshm_close (sys : XshmSys) (i : Nat) : Option DevErr × XshmSys :=
  match sys.devs.get? i with
  | none => (some DevErr.AlreadyClosed, sys)
  | some d =>
    match d.state with
    | XshmDevState.opened => (none, setDevState sys i d XshmDevState.closed)
    | XshmDevState.active => (none, setDevState sys i d XshmDevState.closed)
    | XshmDevState.closed => (some DevErr.AlreadyClosed, sys)
    | XshmDevState.opening => (some DevErr.DeviceBusy, sys)

/-- The externally visible events of the transport: the two one-shot
readiness notifications (xshm_ipc_ready, xshm_caif_ready), a local open()
call, the remote open confirmation (open_cb), the first successful payload
transfer, a local close() call, and a remote-initiated closure (close_cb). -/
inductive SysEvt where
  | ipcReady
  | caifReady
  | openDev (i : Nat)
  | openConfirm (i : Nat)
  | firstTransfer (i : Nat)
  | closeDev (i : Nat)
  | remoteClose (i : Nat)
deriving DecidableEq

/-- Modelled from the spec: event-level semantics of the transport.  The
readiness notifications set their flag; an open() call is ignored outright
unless both readiness flags have been signaled; the remote confirmation
moves Opening to Open; the first successful payload transfer moves Open to
Active; close() applies xshm_close; a remote-initiated closure forces an
Open or Active device to Closed. -/
def sysStep (sys : XshmSys) (e : SysEvt) : XshmSys :=
  match e with
  | SysEvt.ipcReady => { sys with ready_for_ipc := true }
  | SysEvt.caifReady => { sys with ready_for_caif := true }
  | SysEvt.openDev i =>
    if sys.ready_for_ipc && sys.ready_for_caif then (xshm_open sys i).2 else sys
  | SysEvt.openConfirm i =>
    match sys.devs.get? i with
    | some d =>
      if d.state = XshmDevState.opening then setDevState sys i d XshmDevState.opened
      else sys
    | none => sys
  | SysEvt.firstTransfer i =>
    match sys.devs.get? i with
    | some d =>
      if d.state = XshmDevState.opened then setDevState sys i d XshmDevState.active
      else sys
    | none => sys
  | SysEvt.closeDev i => (xshm_close sys i).2
  | SysEvt.remoteClose i =>
    match sys.devs.get? i with
    | some d =>
      if d.state = XshmDevState.opened ∨ d.state = XshmDevState.active then
        setDevState sys i d XshmDevState.closed
      else sys
    | none => sys

/-- The initial transport state for a list of registered configurations:
every device starts Closed and neither readiness flag is set. -/
def initSys (cfgs : List XshmChannel) : XshmSys :=
  { devs := cfgs.map fun c => { cfg := c, state := XshmDevState.closed }
    ready_for_ipc := false
    ready_for_caif := false }

/-- The lifecycle state of the device at index i, if registered. -/
def devState? (sys : XshmSys) (i : Nat) : Option XshmDevState :=
  (sys.devs.get? i).map XshmDev.state

/-- The rx direction's framing mode: struct xshm_udchannel carries no mode
field, so both directions read xshm_channel.mode. -/
def rxFramingMode (c : XshmChannel) : Nat := c.mode

/-- The tx direction's framing mode, read from the same single field. -/
def txFramingMode (c : XshmChannel) : Nat := c.mode

/-- Little-endian encoding of a 32-bit shared-region control word (the
__le32 objects state, read, write and buf_size of struct xshm_udchannel)
as its four bytes, least significant first. -/
def le32_encode (v : Nat) : List Nat :=
  [v % 256, v / 256 % 256, v / 65536 % 256, v / 16777216 % 256]

/-- Decoding of a four-byte little-endian word. -/
def le32_decode (bs : List Nat) : Nat :=
  match bs with
  | [b0, b1, b2, b3] => b0 + 256 * b1 + 65536 * b2 + 16777216 * b3
  | _ => 0

/-- Modelled from the spec: the shared open flag of a channel mirrors the
local device state in the shared region, using the header's encoding
XSHM_CLOSED = 0 / XSHM_OPEN = 1. -/
def sharedOpenFlag (d : XshmDev) : Nat :=
  if d.state = XshmDevState.closed then XSHM_CLOSED else XSHM_OPEN

/-- A concrete unidirectional channel with 4 slots of 128 bytes at base a
(used by the concrete witnesses below). -/
def udAt (a : Nat) : XshmUdchannel :=
  { addr := a
    buffers := 4
    ch_size := 512
    xfer_done_bit := 0
    xfer_bit := 1
    mtu := 128
    alignment := 4
    packets := 1
    state := XSHM_CLOSED
    read := 0
    write := 0
    buf_size := List.replicate 4 0 }

/-- A concrete valid packet-mode duplex configuration in group g. -/
def cfgAt (g : Nat) : XshmChannel :=
  { rx := udAt 0
    tx := udAt 512
    excl_group := g
    mode := XSHM_PACKET_MODE
    name := [120]
    priority := 0
    latency := 0 }

/-- Two devices sharing exclusivity group 5, the first Open, the second
Closed, with both readiness flags signaled. -/
def sameGroupSys : XshmSys :=
  { devs := [{ cfg := cfgAt 5, state := XshmDevState.opened },
             { cfg := cfgAt 5, state := XshmDevState.closed }]
    ready_for_ipc := true
    ready_for_caif := true }

/-- Two devices sharing exclusivity group 7, the first Active, the second
Closed, with both readiness flags signaled. -/
def sameGroupSys7 : XshmSys :=
  { devs := [{ cfg := cfgAt 7, state := XshmDevState.active },
             { cfg := cfgAt 7, state := XshmDevState.closed }]
    ready_for_ipc := true
    ready_for_caif := true }

/-- Two devices in different exclusivity groups (1 and 2), the second Open,
the first Closed. -/
def diffGroupSys : XshmSys :=
  { devs := [{ cfg := cfgAt 1, state := XshmDevState.closed },
             { cfg := cfgAt 2, state := XshmDevState.opened }]
    ready_for_ipc := true
    ready_for_caif := true }

/-- One Open device (used by concrete witnesses). -/
def oneOpenSys : XshmSys :=
  { devs := [{ cfg := cfgAt 3, state := XshmDevState.opened }]
    ready_for_ipc := true
    ready_for_caif := true }

/-- One Closed device with both readiness flags signaled. -/
def oneClosedSys : XshmSys :=
  { devs := [{ cfg := cfgAt 8, state := XshmDevState.closed }]
    ready_for_ipc := true
    ready_for_caif := true }

/-- One Closed device with neither readiness flag signaled. -/
def notReadySys : XshmSys :=
  { devs := [{ cfg := cfgAt 3, state := XshmDevState.closed }]
    ready_for_ipc := false
    ready_for_caif := false }

/-- Inversion for commit_write: a successful commit yields exactly the state
with write advanced by one and the slot length recorded. -/
theorem commit_write_ok_inv (c : XshmUdchannel) (len : Nat) (c2 : XshmUdchannel)
    (h : commit_write c len = Except.ok c2) :
    c2 = { c with
      write := c.write + 1,
      buf_size := c.buf_size.set (c.write % c.buffers) len } := by
  unfold commit_write at h
  split at h
  · exact absurd h (by simp)
  · injection h with h
    exact h.symm

/-- Inversion for release_read_slot: a successful release yields exactly the
state with read advanced by one. -/
theorem release_read_slot_ok_inv (c : XshmUdchannel) (c2 : XshmUdchannel)
    (h : release_read_slot c = Except.ok c2) :
    c.read ≠ c.write ∧ c2 = { c with read := c.read + 1 } := by
  unfold release_read_slot at h
  split at h
  · exact absurd h (by simp)
  · next hne =>
    injection h with h
    exact ⟨hne, h.symm⟩

/-- A successful write step: when the channel is not full and the length is
within mtu, the combined acquire/commit advances write by one and records
the length. -/
theorem ringStep_wr_success (c : XshmUdchannel) (len : Nat)
    (hfull : c.write - c.read < c.buffers) (hlen : len ≤ c.mtu) :
    ringStep c (RingOp.wr len) = { c with
      write := c.write + 1,
      buf_size := c.buf_size.set (c.write % c.buffers) len } := by
  have hacq : acquire_write_slot c = Except.ok (c.write % c.buffers) := by
    unfold acquire_write_slot
    rw [if_neg (by omega)]
  have hcom : commit_write c len = Except.ok { c with
      write := c.write + 1,
      buf_size := c.buf_size.set (c.write % c.buffers) len } := by
    unfold commit_write
    rw [if_neg (by omega)]
  simp only [ringStep, hacq, hcom]

/-- A write step on a full channel changes nothing. -/
theorem ringStep_wr_full (c : XshmUdchannel) (len : Nat)
    (hfull : c.buffers ≤ c.write - c.read) :
    ringStep c (RingOp.wr len) = c := by
  have hacq : acquire_write_slot c = Except.error RingErr.ChannelFull := by
    unfold acquire_write_slot
    rw [if_pos hfull]
  simp only [ringStep, hacq]

/-- A release step on a non-empty channel advances read by one. -/
theorem ringStep_release_success (c : XshmUdchannel) (hne : c.read ≠ c.write) :
    ringStep c RingOp.release = { c with read := c.read + 1 } := by
  have hrel : release_read_slot c = Except.ok { c with read := c.read + 1 } := by
    unfold release_read_slot
    rw [if_neg hne]
  simp only [ringStep, hrel]

/-- Each ring step preserves the channel geometry (buffers, mtu). -/
theorem ringStep_geometry (c : XshmUdchannel) (op : RingOp) :
    (ringStep c op).buffers = c.buffers ∧ (ringStep c op).mtu = c.mtu := by
  cases op with
  | wr len =>
    cases hacq : acquire_write_slot c with
    | error e => simp only [ringStep, hacq]; exact ⟨by trivial, by trivial⟩
    | ok sl =>
      cases hcom : commit_write c len with
      | error e => simp only [ringStep, hacq, hcom]; exact ⟨by trivial, by trivial⟩
      | ok c2 =>
        simp only [ringStep, hacq, hcom]
        rw [commit_write_ok_inv c len c2 hcom]
        exact ⟨by trivial, by trivial⟩
  | peek => exact ⟨rfl, rfl⟩
  | release =>
    cases hrel : release_read_slot c with
    | error e => simp only [ringStep, hrel]; exact ⟨by trivial, by trivial⟩
    | ok c2 =>
      simp only [ringStep, hrel]
      rw [(release_read_slot_ok_inv c c2 hrel).2]
      exact ⟨by trivial, by trivial⟩

/-- No single ring step lets the read index pass the write index. -/
theorem ringStep_read_le_write (c : XshmUdchannel) (op : RingOp)
    (h : c.read ≤ c.write) :
    (ringStep c op).read ≤ (ringStep c op).write := by
  cases op with
  | wr len =>
    cases hacq : acquire_write_slot c with
    | error e => simpa only [ringStep, hacq] using h
    | ok sl =>
      cases hcom : commit_write c len with
      | error e => simpa only [ringStep, hacq, hcom] using h
      | ok c2 =>
        simp only [ringStep, hacq, hcom]
        rw [commit_write_ok_inv c len c2 hcom]
        exact Nat.le_succ_of_le h
  | peek => exact h
  | release =>
    cases hrel : release_read_slot c with
    | error e => simpa only [ringStep, hrel] using h
    | ok c2 =>
      simp only [ringStep, hrel]
      obtain ⟨hne, hc2⟩ := release_read_slot_ok_inv c c2 hrel
      rw [hc2]
      exact Nat.succ_le_of_lt (Nat.lt_of_le_of_ne h hne)

/-- Only a release step moves the read index. -/
theorem ringStep_read_const (c : XshmUdchannel) (op : RingOp)
    (h : op ≠ RingOp.release) :
    (ringStep c op).read = c.read := by
  cases op with
  | wr len =>
    cases hacq : acquire_write_slot c with
    | error e => simp only [ringStep, hacq]
    | ok sl =>
      cases hcom : commit_write c len with
      | error e => simp only [ringStep, hacq, hcom]
      | ok c2 =>
        simp only [ringStep, hacq, hcom]
        rw [commit_write_ok_inv c len c2 hcom]
  | peek => rfl
  | release => exact absurd rfl h

/-- Running any operation list preserves read ≤ write. -/
theorem ringRun_read_le_write (ops : List RingOp) :
    ∀ c : XshmUdchannel, c.read ≤ c.write →
      (ringRun c ops).read ≤ (ringRun c ops).write := by
  induction ops with
  | nil => intro c h; exact h
  | cons op rest ih =>
    intro c h
    exact ih (ringStep c op) (ringStep_read_le_write c op h)

/-- Unfolding of a run over a first operation. -/
theorem ringRun_cons (c : XshmUdchannel) (op : RingOp) (ops : List RingOp) :
    ringRun c (op :: ops) = ringRun (ringStep c op) ops := rfl

/-- acquire_write_slot succeeds exactly below capacity. -/
theorem acquire_write_slot_ok (c : XshmUdchannel)
    (h : c.write - c.read < c.buffers) :
    acquire_write_slot c = Except.ok (c.write % c.buffers) := by
  unfold acquire_write_slot
  rw [if_neg (by omega)]

/-- acquire_write_slot reports ChannelFull at capacity. -/
theorem acquire_write_slot_full (c : XshmUdchannel)
    (h : c.buffers ≤ c.write - c.read) :
    acquire_write_slot c = Except.error RingErr.ChannelFull := by
  unfold acquire_write_slot
  rw [if_pos h]

/-- Writing n packets into a channel with room for them advances the write
index by n and leaves the read index and the geometry alone. -/
theorem ringRun_replicate_wr (len : Nat) :
    ∀ (n : Nat) (c : XshmUdchannel), len ≤ c.mtu → c.read ≤ c.write →
      c.write + n ≤ c.read + c.buffers →
      (ringRun c (List.replicate n (RingOp.wr len))).read = c.read ∧
      (ringRun c (List.replicate n (RingOp.wr len))).write = c.write + n ∧
      (ringRun c (List.replicate n (RingOp.wr len))).buffers = c.buffers ∧
      (ringRun c (List.replicate n (RingOp.wr len))).mtu = c.mtu := by
  intro n
  induction n with
  | zero =>
    intro c _ _ _
    exact ⟨rfl, rfl, rfl, rfl⟩
  | succ m ih =>
    intro c hlen hrw hroom
    rw [List.replicate_succ, ringRun_cons,
      ringStep_wr_success c len (by omega) hlen]
    obtain ⟨h1, h2, h3, h4⟩ := ih
      { c with write := c.write + 1,
               buf_size := c.buf_size.set (c.write % c.buffers) len }
      hlen (by show c.read ≤ c.write + 1; omega)
      (by show c.write + 1 + m ≤ c.read + c.buffers; omega)
    refine ⟨h1, ?_, h3, h4⟩
    rw [h2]
    show c.write + 1 + m = c.write + (m + 1)
    omega

/-- Claim C1: for every sequence of acquire_write_slot/commit_write calls
by the producer interleaved with peek_read_slot/release_read_slot calls by
the consumer, starting from a fresh channel, the read index never exceeds
the write index (the consumer never reads an unwritten slot), and
release_read_slot is the only operation that advances the read index. -/
theorem ring_read_never_passes_write (buffers mtu : Nat) (ops : List RingOp) :
    (ringRun (initRing buffers mtu) ops).read
      ≤ (ringRun (initRing buffers mtu) ops).write ∧
    ∀ op : RingOp, op ≠ RingOp.release →
      (ringStep (ringRun (initRing buffers mtu) ops) op).read
        = (ringRun (initRing buffers mtu) ops).read := by
  refine ⟨ringRun_read_le_write ops (initRing buffers mtu) (Nat.le_refl 0), ?_⟩
  intro op hop
  exact ringStep_read_const _ op hop

/-- Concrete check of ring_read_never_passes_write on a 4-slot channel after
one write and one release, stepping a further non-release operation. -/
theorem ring_read_never_passes_write_witness :
    (RingOp.wr 5 ≠ RingOp.release) ∧
    (ringRun (initRing 4 128) [RingOp.wr 7, RingOp.release]).read
      ≤ (ringRun (initRing 4 128) [RingOp.wr 7, RingOp.release]).write ∧
    (ringStep (ringRun (initRing 4 128) [RingOp.wr 7, RingOp.release]) (RingOp.wr 5)).read
      = (ringRun (initRing 4 128) [RingOp.wr 7, RingOp.release]).read :=
  ⟨by decide,
   (ring_read_never_passes_write 4 128 [RingOp.wr 7, RingOp.release]).1,
   (ring_read_never_passes_write 4 128 [RingOp.wr 7, RingOp.release]).2
     (RingOp.wr 5) (by decide)⟩

/-- Claim C7: on a packet-mode channel with N slots, N consecutive
acquire/commit pairs all succeed from a fresh channel; the next acquire
fails with ChannelFull and changes nothing; after the consumer releases one
slot exactly one further acquire/commit pair succeeds, and the acquire
after it fails with ChannelFull again. -/
theorem packet_ring_fills_and_frees (N mtu len : Nat)
    (hN : 0 < N) (hlen : len ≤ mtu) :
    (∀ k, k < N → ∃ sl, acquire_write_slot
        (ringRun (initRing N mtu) (List.replicate k (RingOp.wr len)))
        = Except.ok sl) ∧
    acquire_write_slot (ringRun (initRing N mtu) (List.replicate N (RingOp.wr len)))
      = Except.error RingErr.ChannelFull ∧
    ringStep (ringRun (initRing N mtu) (List.replicate N (RingOp.wr len)))
        (RingOp.wr len)
      = ringRun (initRing N mtu) (List.replicate N (RingOp.wr len)) ∧
    (∃ sl, acquire_write_slot
        (ringStep (ringRun (initRing N mtu) (List.replicate N (RingOp.wr len)))
          RingOp.release)
      = Except.ok sl) ∧
    (ringStep (ringStep (ringRun (initRing N mtu) (List.replicate N (RingOp.wr len)))
        RingOp.release) (RingOp.wr len)).write = N + 1 ∧
    acquire_write_slot
        (ringStep (ringStep (ringRun (initRing N mtu)
          (List.replicate N (RingOp.wr len))) RingOp.release) (RingOp.wr len))
      = Except.error RingErr.ChannelFull := by
  have hfields : ∀ k, k ≤ N →
      (ringRun (initRing N mtu) (List.replicate k (RingOp.wr len))).read = 0 ∧
      (ringRun (initRing N mtu) (List.replicate k (RingOp.wr len))).write = k ∧
      (ringRun (initRing N mtu) (List.replicate k (RingOp.wr len))).buffers = N ∧
      (ringRun (initRing N mtu) (List.replicate k (RingOp.wr len))).mtu = mtu := by
    intro k hk
    have h := ringRun_replicate_wr len k (initRing N mtu) hlen
      (Nat.le_refl 0) (by show 0 + k ≤ 0 + N; omega)
    simpa only [initRing, Nat.zero_add] using h
  set cN := ringRun (initRing N mtu) (List.replicate N (RingOp.wr len)) with hcN
  obtain ⟨hr, hw, hb, hm⟩ := hfields N (Nat.le_refl N)
  have hrel : ringStep cN RingOp.release = { cN with read := cN.read + 1 } :=
    ringStep_release_success cN (by rw [hr, hw]; omega)
  refine ⟨?_, ?_, ?_, ?_, ?_, ?_⟩
  · intro k hk
    obtain ⟨hr2, hw2, hb2, hm2⟩ := hfields k (Nat.le_of_lt hk)
    exact ⟨_, acquire_write_slot_ok _ (by rw [hw2, hr2, hb2]; omega)⟩
  · exact acquire_write_slot_full cN (by rw [hw, hr, hb]; omega)
  · exact ringStep_wr_full cN len (by rw [hw, hr, hb]; omega)
  · refine ⟨_, acquire_write_slot_ok _ ?_⟩
    rw [hrel]
    show cN.write - (cN.read + 1) < cN.buffers
    rw [hw, hr, hb]
    omega
  · rw [hrel, ringStep_wr_success _ len
      (by show cN.write - (cN.read + 1) < cN.buffers; rw [hw, hr, hb]; omega)
      (by show len ≤ cN.mtu; rw [hm]; exact hlen)]
    show cN.write + 1 = N + 1
    rw [hw]
  · rw [hrel, ringStep_wr_success _ len
      (by show cN.write - (cN.read + 1) < cN.buffers; rw [hw, hr, hb]; omega)
      (by show len ≤ cN.mtu; rw [hm]; exact hlen)]
    refine acquire_write_slot_full _ ?_
    show cN.buffers ≤ (cN.write + 1) - (cN.read + 1)
    rw [hb, hw, hr]
    omega

/-- Concrete check of packet_ring_fills_and_frees at the spec's scenario of
4 slots of 128 bytes. -/
theorem packet_ring_fills_and_frees_witness :
    acquire_write_slot (ringRun (initRing 4 128) (List.replicate 4 (RingOp.wr 128)))
      = Except.error RingErr.ChannelFull ∧
    (ringStep (ringStep (ringRun (initRing 4 128)
        (List.replicate 4 (RingOp.wr 128))) RingOp.release) (RingOp.wr 128)).write = 5 :=
  ⟨(packet_ring_fills_and_frees 4 128 128 (by decide) (by decide)).2.1,
   (packet_ring_fills_and_frees 4 128 128 (by decide) (by decide)).2.2.2.2.1⟩

/-- Claim C8: commit_write with length exactly mtu succeeds and advances the
write index by one; every length strictly greater than mtu (in particular
mtu + 1) fails with PayloadTooLarge, and the failed write leaves the
channel, in particular its write index, unchanged. -/
theorem commit_write_mtu_boundary (c : XshmUdchannel) :
    commit_write c c.mtu = Except.ok { c with
      write := c.write + 1,
      buf_size := c.buf_size.set (c.write % c.buffers) c.mtu } ∧
    ∀ len, c.mtu < len →
      commit_write c len = Except.error RingErr.PayloadTooLarge ∧
      ringStep c (RingOp.wr len) = c := by
  refine ⟨?_, ?_⟩
  · unfold commit_write
    rw [if_neg (by omega)]
  · intro len hlen
    have hcom : commit_write c len = Except.error RingErr.PayloadTooLarge := by
      unfold commit_write
      rw [if_pos hlen]
    refine ⟨hcom, ?_⟩
    cases hacq : acquire_write_slot c with
    | error e => simp only [ringStep, hacq]
    | ok sl => simp only [ringStep, hacq, hcom]

/-- Concrete check of commit_write_mtu_boundary on a 128-byte-mtu channel:
length 129 = mtu + 1 is one over the bound and is rejected without moving
the channel. -/
theorem commit_write_mtu_boundary_witness :
    (initRing 4 128).mtu < 129 ∧
    commit_write (initRing 4 128) 129 = Except.error RingErr.PayloadTooLarge ∧
    ringStep (initRing 4 128) (RingOp.wr 129) = initRing 4 128 :=
  ⟨by decide,
   ((commit_write_mtu_boundary (initRing 4 128)).2 129 (by decide)).1,
   ((commit_write_mtu_boundary (initRing 4 128)).2 129 (by decide)).2⟩

/-- Updating the device at a registered index i is visible at i. -/
theorem devState?_set_self (sys : XshmSys) (i : Nat) (d0 : XshmDev)
    (st : XshmDevState) (hd : sys.devs.get? i = some d0) :
    devState? (setDevState sys i d0 st) i = some st := by
  unfold devState? setDevState
  have hlt : i < sys.devs.length := (List.get?_eq_some.mp hd).1
  show ((sys.devs.set i { d0 with state := st }).get? i).map XshmDev.state
    = some st
  rw [List.get?_set_eq_of_lt _ hlt]
  rfl

/-- Updating the device at index j does not change the state at i ≠ j. -/
theorem devState?_set_ne (sys : XshmSys) (j i : Nat) (d0 : XshmDev)
    (st : XshmDevState) (h : j ≠ i) :
    devState? (setDevState sys j d0 st) i = devState? sys i := by
  unfold devState? setDevState
  show ((sys.devs.set j { d0 with state := st }).get? i).map XshmDev.state
    = (sys.devs.get? i).map XshmDev.state
  rw [List.get?_set_ne _ sys.devs h]

/-- The state reported by devState? is the state of the device found. -/
theorem devState?_some_state (sys : XshmSys) (i : Nat) (d : XshmDev)
    (st : XshmDevState) (hd : sys.devs.get? i = some d)
    (hst : devState? sys i = some st) : st = d.state := by
  unfold devState? at hst
  rw [hd] at hst
  simp only [Option.map_some'] at hst
  injection hst with hst
  exact hst.symm

/-- Case analysis of xshm_open: it fails with InvalidConfig or
ResourceConflict leaving the system unchanged, or succeeds on a Closed,
consistently configured, conflict-free device, setting it to Opening. -/
theorem xshm_open_cases (sys : XshmSys) (i : Nat) :
    xshm_open sys i = (some DevErr.InvalidConfig, sys) ∨
    xshm_open sys i = (some DevErr.ResourceConflict, sys) ∨
    ∃ d, sys.devs.get? i = some d ∧ d.state = XshmDevState.closed ∧
      validCfg d.cfg ∧ exclConflict sys.devs d.cfg.excl_group = false ∧
      xshm_open sys i = (none, setDevState sys i d XshmDevState.opening) := by
  cases hd : sys.devs.get? i with
  | none =>
    left
    simp only [xshm_open, hd]
  | some d =>
    by_cases h1 : d.state ≠ XshmDevState.closed
    · left
      simp only [xshm_open, hd, xshm_open_dev]
      rw [if_pos h1]
    · by_cases h2 : ¬ validCfg d.cfg
      · left
        simp only [xshm_open, hd, xshm_open_dev]
        rw [if_neg h1, if_pos h2]
      · by_cases h3 : exclConflict sys.devs d.cfg.excl_group = true
        · right; left
          simp only [xshm_open, hd, xshm_open_dev]
          rw [if_neg h1, if_neg h2, if_pos h3]
        · right; right
          refine ⟨d, rfl, not_not.mp h1, not_not.mp h2, ?_, ?_⟩
          · cases hb : exclConflict sys.devs d.cfg.excl_group
            · rfl
            · exact absurd hb h3
          · simp only [xshm_open, hd, xshm_open_dev]
            rw [if_neg h1, if_neg h2, if_neg h3]

/-- Inversion of a failed xshm_open: the error is InvalidConfig or
ResourceConflict and the system is unchanged. -/
theorem xshm_open_err_inv (sys : XshmSys) (i : Nat) (err : DevErr)
    (h : (xshm_open sys i).1 = some err) :
    (err = DevErr.InvalidConfig ∨ err = DevErr.ResourceConflict) ∧
    (xshm_open sys i).2 = sys := by
  rcases xshm_open_cases sys i with hc | hc | ⟨d, _, _, _, _, hc⟩
  · rw [hc] at h ⊢
    simp only [Option.some.injEq] at h
    exact ⟨Or.inl h.symm, rfl⟩
  · rw [hc] at h ⊢
    simp only [Option.some.injEq] at h
    exact ⟨Or.inr h.symm, rfl⟩
  · rw [hc] at h
    exact absurd h (by simp)

/-- Inversion of a successful xshm_open: the device was Closed with a
consistent configuration and no exclusivity conflict, and exactly its
state was set to Opening. -/
theorem xshm_open_none_inv (sys : XshmSys) (i : Nat)
    (h : (xshm_open sys i).1 = none) :
    ∃ d, sys.devs.get? i = some d ∧ d.state = XshmDevState.closed ∧
      validCfg d.cfg ∧ exclConflict sys.devs d.cfg.excl_group = false ∧
      (xshm_open sys i).2 = setDevState sys i d XshmDevState.opening := by
  rcases xshm_open_cases sys i with hc | hc | ⟨d, hd, hdc, hv, hnc, hc⟩
  · rw [hc] at h
    exact absurd h (by simp)
  · rw [hc] at h
    exact absurd h (by simp)
  · exact ⟨d, hd, hdc, hv, hnc, by rw [hc]⟩

/-- A successful open, from its preconditions. -/
theorem xshm_open_ok_of (sys : XshmSys) (i : Nat) (d : XshmDev)
    (hd : sys.devs.get? i = some d) (hdc : d.state = XshmDevState.closed)
    (hv : validCfg d.cfg)
    (hnc : exclConflict sys.devs d.cfg.excl_group = false) :
    xshm_open sys i = (none, setDevState sys i d XshmDevState.opening) := by
  simp only [xshm_open, hd, xshm_open_dev]
  rw [if_neg (by simp [hdc]), if_neg (not_not_intro hv), if_neg (by simp [hnc])]

/-- A close on a device observed Closed fails with AlreadyClosed and
changes nothing. -/
theorem xshm_close_closed (t : XshmSys) (i : Nat)
    (h : devState? t i = some XshmDevState.closed) :
    xshm_close t i = (some DevErr.AlreadyClosed, t) := by
  cases hd : t.devs.get? i with
  | none => simp only [xshm_close, hd]
  | some d =>
    have hds : d.state = XshmDevState.closed :=
      (devState?_some_state t i d _ hd h).symm
    simp only [xshm_close, hd, hds]

/-- A close on a device observed Open or Active succeeds and sets it to
Closed. -/
theorem xshm_close_open (sys : XshmSys) (i : Nat) (d : XshmDev)
    (hd : sys.devs.get? i = some d)
    (hst : d.state = XshmDevState.opened ∨ d.state = XshmDevState.active) :
    xshm_close sys i = (none, setDevState sys i d XshmDevState.closed) := by
  rcases hst with h | h <;> simp only [xshm_close, hd, h]

/-- xshm_open does not touch the readiness flags. -/
theorem xshm_open_ready (sys : XshmSys) (i : Nat) :
    (xshm_open sys i).2.ready_for_ipc = sys.ready_for_ipc ∧
    (xshm_open sys i).2.ready_for_caif = sys.ready_for_caif := by
  rcases xshm_open_cases sys i with hc | hc | ⟨d, _, _, _, _, hc⟩ <;>
    rw [hc] <;> exact ⟨rfl, rfl⟩

/-- xshm_close does not touch the readiness flags. -/
theorem xshm_close_ready (sys : XshmSys) (i : Nat) :
    (xshm_close sys i).2.ready_for_ipc = sys.ready_for_ipc ∧
    (xshm_close sys i).2.ready_for_caif = sys.ready_for_caif := by
  cases hd : sys.devs.get? i with
  | none =>
    have hc : xshm_close sys i = (some DevErr.AlreadyClosed, sys) := by
      simp only [xshm_close, hd]
    rw [hc]
    exact ⟨rfl, rfl⟩
  | some d =>
    cases hds : d.state
    case closed =>
      have hc : xshm_close sys i = (some DevErr.AlreadyClosed, sys) := by
        simp only [xshm_close, hd, hds]
      rw [hc]; exact ⟨rfl, rfl⟩
    case opening =>
      have hc : xshm_close sys i = (some DevErr.DeviceBusy, sys) := by
        simp only [xshm_close, hd, hds]
      rw [hc]; exact ⟨rfl, rfl⟩
    case opened =>
      rw [xshm_close_open sys i d hd (Or.inl hds)]
      exact ⟨rfl, rfl⟩
    case active =>
      rw [xshm_close_open sys i d hd (Or.inr hds)]
      exact ⟨rfl, rfl⟩

/-- Claim C3: close() on a device in state Open or Active performs the
close effect — the device becomes Closed, so no further local writes are
accepted — and every subsequent close() on the now Closed device fails
with AlreadyClosed without touching any state; in general a close() on a
device observed Closed is a failing no-op. -/
theorem close_idempotent (sys : XshmSys) (i : Nat) (d : XshmDev)
    (hd : sys.devs.get? i = some d)
    (hst : d.state = XshmDevState.opened ∨ d.state = XshmDevState.active) :
    (xshm_close sys i).1 = none ∧
    devState? (xshm_close sys i).2 i = some XshmDevState.closed ∧
    xshm_close (xshm_close sys i).2 i
      = (some DevErr.AlreadyClosed, (xshm_close sys i).2) ∧
    ∀ t : XshmSys, devState? t i = some XshmDevState.closed →
      xshm_close t i = (some DevErr.AlreadyClosed, t) := by
  have hcl := xshm_close_open sys i d hd hst
  have hcstate : devState? (xshm_close sys i).2 i = some XshmDevState.closed := by
    rw [hcl]
    exact devState?_set_self sys i d XshmDevState.closed hd
  refine ⟨by rw [hcl], hcstate, ?_, ?_⟩
  · exact xshm_close_closed (xshm_close sys i).2 i hcstate
  · intro t ht
    exact xshm_close_closed t i ht

/-- Concrete check of close_idempotent: closing an Open device then
closing again reports AlreadyClosed and leaves the state Closed. -/
theorem close_idempotent_witness :
    (xshm_close oneOpenSys 0).1 = none ∧
    xshm_close (xshm_close oneOpenSys 0).2 0
      = (some DevErr.AlreadyClosed, (xshm_close oneOpenSys 0).2) :=
  ⟨(close_idempotent oneOpenSys 0
      { cfg := cfgAt 3, state := XshmDevState.opened } (by decide) (by decide)).1,
   (close_idempotent oneOpenSys 0
      { cfg := cfgAt 3, state := XshmDevState.opened } (by decide) (by decide)).2.2.1⟩

/-- Claim C4 as stated is refuted by the code: the header documents
excl_group as "Only channels with the same group ID can be open
simultaneously", so with two devices both in group 5 and the first Open,
open() on the second succeeds instead of failing with ResourceConflict. -/
theorem open_same_group_succeeds :
    (sameGroupSys.devs.get? 0).map (fun d => d.cfg.excl_group) = some 5 ∧
    (sameGroupSys.devs.get? 1).map (fun d => d.cfg.excl_group) = some 5 ∧
    devState? sameGroupSys 0 = some XshmDevState.opened ∧
    devState? sameGroupSys 1 = some XshmDevState.closed ∧
    (xshm_open sameGroupSys 1).1 = none ∧
    devState? (xshm_open sameGroupSys 1).2 1 = some XshmDevState.opening := by
  decide

/-- Claim C4 (amended): two devices conflict when their exclusivity groups
differ — if any Open or Active device carries a different group ID, open()
on a Closed, consistently configured device fails with ResourceConflict
and leaves the whole system, in particular that device's state,
unchanged. -/
theorem open_different_group_conflicts (sys : XshmSys) (i j : Nat)
    (d e : XshmDev)
    (hd : sys.devs.get? i = some d) (hdc : d.state = XshmDevState.closed)
    (hv : validCfg d.cfg)
    (he : sys.devs.get? j = some e)
    (heo : e.state = XshmDevState.opened ∨ e.state = XshmDevState.active)
    (hg : e.cfg.excl_group ≠ d.cfg.excl_group) :
    xshm_open sys i = (some DevErr.ResourceConflict, sys) := by
  have hconf : exclConflict sys.devs d.cfg.excl_group = true := by
    unfold exclConflict
    rw [List.any_eq_true]
    refine ⟨e, List.get?_mem he, ?_⟩
    unfold devIsOpen
    rcases heo with h | h <;> simp [h, hg]
  simp only [xshm_open, hd, xshm_open_dev]
  rw [if_neg (by simp [hdc]), if_neg (not_not_intro hv), if_pos hconf]

/-- Concrete check of open_different_group_conflicts: a Closed device of
group 1 cannot open while a device of group 2 is Open. -/
theorem open_different_group_conflicts_witness :
    xshm_open diffGroupSys 0 = (some DevErr.ResourceConflict, diffGroupSys) :=
  open_different_group_conflicts diffGroupSys 0 1
    { cfg := cfgAt 1, state := XshmDevState.closed }
    { cfg := cfgAt 2, state := XshmDevState.opened }
    (by decide) (by decide) (by decide) (by decide) (by decide) (by decide)

/-- Claim C5 as stated is refuted by the code on the exclusivity clause:
open() succeeds on a Closed, consistently configured device although
another device of the same group (7) is Active, so "no same-group device
is Open/Active" is not a precondition of success. -/
theorem open_succeeds_despite_same_group :
    (sameGroupSys7.devs.get? 0).map (fun d => d.cfg.excl_group) = some 7 ∧
    (sameGroupSys7.devs.get? 1).map (fun d => d.cfg.excl_group) = some 7 ∧
    devState? sameGroupSys7 0 = some XshmDevState.active ∧
    devState? sameGroupSys7 1 = some XshmDevState.closed ∧
    (xshm_open sameGroupSys7 1).1 = none := by
  decide

/-- Claim C5 (amended): open() succeeds exactly when the device exists, is
Closed, its configuration is consistent, and no Open/Active device of a
different exclusivity group exists; on success the device state becomes
Opening; on failure the error is InvalidConfig or ResourceConflict and the
system is returned exactly as it was. -/
theorem open_succeeds_iff (sys : XshmSys) (i : Nat) :
    ((xshm_open sys i).1 = none ↔
      ∃ d, sys.devs.get? i = some d ∧ d.state = XshmDevState.closed ∧
        validCfg d.cfg ∧ exclConflict sys.devs d.cfg.excl_group = false) ∧
    ((xshm_open sys i).1 = none →
      devState? (xshm_open sys i).2 i = some XshmDevState.opening) ∧
    (∀ err, (xshm_open sys i).1 = some err →
      (err = DevErr.InvalidConfig ∨ err = DevErr.ResourceConflict) ∧
      (xshm_open sys i).2 = sys) := by
  refine ⟨⟨?_, ?_⟩, ?_, ?_⟩
  · intro h
    obtain ⟨d, hd, hdc, hv, hnc, _⟩ := xshm_open_none_inv sys i h
    exact ⟨d, hd, hdc, hv, hnc⟩
  · intro ⟨d, hd, hdc, hv, hnc⟩
    rw [xshm_open_ok_of sys i d hd hdc hv hnc]
  · intro h
    obtain ⟨d, hd, _, _, _, hsnd⟩ := xshm_open_none_inv sys i h
    rw [hsnd]
    exact devState?_set_self sys i d XshmDevState.opening hd
  · intro err h
    exact xshm_open_err_inv sys i err h

/-- Concrete check of open_succeeds_iff: opening the single Closed valid
device succeeds and sets it Opening. -/
theorem open_succeeds_iff_witness :
    devState? (xshm_open oneClosedSys 0).2 0 = some XshmDevState.opening :=
  (open_succeeds_iff oneClosedSys 0).2.1 (by decide)

/-- Only the ipcReady event can change the ready_for_ipc flag. -/
theorem sysStep_ipc_flag (sys : XshmSys) (e : SysEvt)
    (h : e ≠ SysEvt.ipcReady) :
    (sysStep sys e).ready_for_ipc = sys.ready_for_ipc := by
  cases e with
  | ipcReady => exact absurd rfl h
  | caifReady => rfl
  | openDev j =>
    by_cases hb : (sys.ready_for_ipc && sys.ready_for_caif) = true
    · simp only [sysStep, if_pos hb]
      exact (xshm_open_ready sys j).1
    · simp only [sysStep, if_neg hb]
  | openConfirm j =>
    cases hd : sys.devs.get? j with
    | none => simp only [sysStep, hd]
    | some d =>
      simp only [sysStep, hd]
      split <;> rfl
  | firstTransfer j =>
    cases hd : sys.devs.get? j with
    | none => simp only [sysStep, hd]
    | some d =>
      simp only [sysStep, hd]
      split <;> rfl
  | closeDev j =>
    simp only [sysStep]
    exact (xshm_close_ready sys j).1
  | remoteClose j =>
    cases hd : sys.devs.get? j with
    | none => simp only [sysStep, hd]
    | some d =>
      simp only [sysStep, hd]
      split <;> rfl

/-- Only the caifReady event can change the ready_for_caif flag. -/
theorem sysStep_caif_flag (sys : XshmSys) (e : SysEvt)
    (h : e ≠ SysEvt.caifReady) :
    (sysStep sys e).ready_for_caif = sys.ready_for_caif := by
  cases e with
  | ipcReady => rfl
  | caifReady => exact absurd rfl h
  | openDev j =>
    by_cases hb : (sys.ready_for_ipc && sys.ready_for_caif) = true
    · simp only [sysStep, if_pos hb]
      exact (xshm_open_ready sys j).2
    · simp only [sysStep, if_neg hb]
  | openConfirm j =>
    cases hd : sys.devs.get? j with
    | none => simp only [sysStep, hd]
    | some d =>
      simp only [sysStep, hd]
      split <;> rfl
  | firstTransfer j =>
    cases hd : sys.devs.get? j with
    | none => simp only [sysStep, hd]
    | some d =>
      simp only [sysStep, hd]
      split <;> rfl
  | closeDev j =>
    simp only [sysStep]
    exact (xshm_close_ready sys j).2
  | remoteClose j =>
    cases hd : sys.devs.get? j with
    | none => simp only [sysStep, hd]
    | some d =>
      simp only [sysStep, hd]
      split <;> rfl

/-- Claim C6: the readiness flags ready_for_ipc and ready_for_caif are
monotone — once signaled, no event of the transport resets them, and the
only events setting them are the one-shot ready notifications — and an
open() call arriving before both flags are signaled is ignored: the system
is left completely unchanged. -/
theorem readiness_gate (sys : XshmSys) (e : SysEvt) (i : Nat) :
    (sys.ready_for_ipc = true → (sysStep sys e).ready_for_ipc = true) ∧
    (sys.ready_for_caif = true → (sysStep sys e).ready_for_caif = true) ∧
    ((sysStep sys e).ready_for_ipc = true →
      sys.ready_for_ipc = true ∨ e = SysEvt.ipcReady) ∧
    ((sysStep sys e).ready_for_caif = true →
      sys.ready_for_caif = true ∨ e = SysEvt.caifReady) ∧
    (¬(sys.ready_for_ipc = true ∧ sys.ready_for_caif = true) →
      sysStep sys (SysEvt.openDev i) = sys) := by
  refine ⟨?_, ?_, ?_, ?_, ?_⟩
  · intro h
    by_cases he : e = SysEvt.ipcReady
    · subst he; rfl
    · rw [sysStep_ipc_flag sys e he]; exact h
  · intro h
    by_cases he : e = SysEvt.caifReady
    · subst he; rfl
    · rw [sysStep_caif_flag sys e he]; exact h
  · intro h
    by_cases he : e = SysEvt.ipcReady
    · exact Or.inr he
    · rw [sysStep_ipc_flag sys e he] at h; exact Or.inl h
  · intro h
    by_cases he : e = SysEvt.caifReady
    · exact Or.inr he
    · rw [sysStep_caif_flag sys e he] at h; exact Or.inl h
  · intro hn
    have hb : (sys.ready_for_ipc && sys.ready_for_caif) = false := by
      cases hi : sys.ready_for_ipc <;> cases hc : sys.ready_for_caif <;>
        simp_all
    simp only [sysStep, hb]
    rfl

/-- Concrete check of readiness_gate: with neither flag signaled an open()
event is a complete no-op, and a later caifReady does not reset any flag
already derived. -/
theorem readiness_gate_witness :
    sysStep notReadySys (SysEvt.openDev 0) = notReadySys :=
  (readiness_gate notReadySys (SysEvt.caifReady) 0).2.2.2.2 (by decide)

/-- Claim C2: every device starts Closed, its state is always one of the
four enum values (by construction of xshm_dev_state), and any event that
changes the state of device i performs one of exactly these transitions:
Closed→Opening by open() on i, Opening→Open by the remote open
confirmation for i, Open→Active by the first successful payload transfer
on i, and Open/Active→Closed by close() on i or a remote-initiated closure
of i. -/
theorem lifecycle_state_machine (cfgs : List XshmChannel) (i : Nat) :
    (∀ st, devState? (initSys cfgs) i = some st → st = XshmDevState.closed) ∧
    ∀ (sys : XshmSys) (e : SysEvt) (st st' : XshmDevState),
      devState? sys i = some st → devState? (sysStep sys e) i = some st' →
      st' ≠ st →
      (st = XshmDevState.closed ∧ st' = XshmDevState.opening ∧
        e = SysEvt.openDev i) ∨
      (st = XshmDevState.opening ∧ st' = XshmDevState.opened ∧
        e = SysEvt.openConfirm i) ∨
      (st = XshmDevState.opened ∧ st' = XshmDevState.active ∧
        e = SysEvt.firstTransfer i) ∨
      ((st = XshmDevState.opened ∨ st = XshmDevState.active) ∧
        st' = XshmDevState.closed ∧
        (e = SysEvt.closeDev i ∨ e = SysEvt.remoteClose i)) := by
  constructor
  · intro st h
    unfold devState? initSys at h
    rw [List.get?_map] at h
    cases hc : cfgs.get? i with
    | none => rw [hc] at h; exact absurd h (by simp)
    | some c =>
      rw [hc] at h
      simp only [Option.map_some'] at h
      injection h with h
      exact h.symm
  · intro sys e st st' hst hst' hne
    cases e with
    | ipcReady =>
      exfalso; apply hne
      have hsame : devState? (sysStep sys SysEvt.ipcReady) i
          = devState? sys i := rfl
      rw [hsame, hst] at hst'
      injection hst' with hst'
      exact hst'.symm
    | caifReady =>
      exfalso; apply hne
      have hsame : devState? (sysStep sys SysEvt.caifReady) i
          = devState? sys i := rfl
      rw [hsame, hst] at hst'
      injection hst' with hst'
      exact hst'.symm
    | openDev j =>
      by_cases hb : (sys.ready_for_ipc && sys.ready_for_caif) = true
      · have hstep0 : sysStep sys (SysEvt.openDev j) = (xshm_open sys j).2 := by
          simp only [sysStep, if_pos hb]
        cases hop : (xshm_open sys j).1 with
        | some err =>
          exfalso; apply hne
          rw [hstep0, (xshm_open_err_inv sys j err hop).2, hst] at hst'
          injection hst' with hst'
          exact hst'.symm
        | none =>
          obtain ⟨d, hd, hdc, _, _, hsnd⟩ := xshm_open_none_inv sys j hop
          by_cases hij : j = i
          · subst hij
            rw [hstep0, hsnd,
              devState?_set_self sys j d XshmDevState.opening hd] at hst'
            injection hst' with hst'
            have hstd : st = d.state := devState?_some_state sys j d st hd hst
            left
            exact ⟨by rw [hstd]; exact hdc, hst'.symm, rfl⟩
          · exfalso; apply hne
            rw [hstep0, hsnd,
              devState?_set_ne sys j i d XshmDevState.opening hij, hst] at hst'
            injection hst' with hst'
            exact hst'.symm
      · exfalso; apply hne
        have hstep : sysStep sys (SysEvt.openDev j) = sys := by
          simp only [sysStep, hb]
          rfl
        rw [hstep, hst] at hst'
        injection hst' with hst'
        exact hst'.symm
    | openConfirm j =>
      cases hd : sys.devs.get? j with
      | none =>
        exfalso; apply hne
        have hstep : sysStep sys (SysEvt.openConfirm j) = sys := by
          simp only [sysStep, hd]
        rw [hstep, hst] at hst'
        injection hst' with hst'
        exact hst'.symm
      | some d =>
        by_cases hds : d.state = XshmDevState.opening
        · have hstep : sysStep sys (SysEvt.openConfirm j)
              = setDevState sys j d XshmDevState.opened := by
            simp only [sysStep, hd, if_pos hds]
          by_cases hij : j = i
          · subst hij
            rw [hstep,
              devState?_set_self sys j d XshmDevState.opened hd] at hst'
            injection hst' with hst'
            have hstd : st = d.state := devState?_some_state sys j d st hd hst
            right; left
            exact ⟨by rw [hstd]; exact hds, hst'.symm, rfl⟩
          · exfalso; apply hne
            rw [hstep,
              devState?_set_ne sys j i d XshmDevState.opened hij, hst] at hst'
            injection hst' with hst'
            exact hst'.symm
        · exfalso; apply hne
          have hstep : sysStep sys (SysEvt.openConfirm j) = sys := by
            simp only [sysStep, hd, if_neg hds]
          rw [hstep, hst] at hst'
          injection hst' with hst'
          exact hst'.symm
    | firstTransfer j =>
      cases hd : sys.devs.get? j with
      | none =>
        exfalso; apply hne
        have hstep : sysStep sys (SysEvt.firstTransfer j) = sys := by
          simp only [sysStep, hd]
        rw [hstep, hst] at hst'
        injection hst' with hst'
        exact hst'.symm
      | some d =>
        by_cases hds : d.state = XshmDevState.opened
        · have hstep : sysStep sys (SysEvt.firstTransfer j)
              = setDevState sys j d XshmDevState.active := by
            simp only [sysStep, hd, if_pos hds]
          by_cases hij : j = i
          · subst hij
            rw [hstep,
              devState?_set_self sys j d XshmDevState.active hd] at hst'
            injection hst' with hst'
            have hstd : st = d.state := devState?_some_state sys j d st hd hst
            right; right; left
            exact ⟨by rw [hstd]; exact hds, hst'.symm, rfl⟩
          · exfalso; apply hne
            rw [hstep,
              devState?_set_ne sys j i d XshmDevState.active hij, hst] at hst'
            injection hst' with hst'
            exact hst'.symm
        · exfalso; apply hne
          have hstep : sysStep sys (SysEvt.firstTransfer j) = sys := by
            simp only [sysStep, hd, if_neg hds]
          rw [hstep, hst] at hst'
          injection hst' with hst'
          exact hst'.symm
    | closeDev j =>
      cases hd : sys.devs.get? j with
      | none =>
        exfalso; apply hne
        have hstep : sysStep sys (SysEvt.closeDev j) = sys := by
          show (xshm_close sys j).2 = sys
          simp only [xshm_close, hd]
        rw [hstep, hst] at hst'
        injection hst' with hst'
        exact hst'.symm
      | some d =>
        by_cases hds : d.state = XshmDevState.opened
          ∨ d.state = XshmDevState.active
        · have hstep : sysStep sys (SysEvt.closeDev j)
              = setDevState sys j d XshmDevState.closed := by
            show (xshm_close sys j).2 = _
            rw [xshm_close_open sys j d hd hds]
          by_cases hij : j = i
          · subst hij
            rw [hstep,
              devState?_set_self sys j d XshmDevState.closed hd] at hst'
            injection hst' with hst'
            have hstd : st = d.state := devState?_some_state sys j d st hd hst
            right; right; right
            refine ⟨?_, hst'.symm, Or.inl rfl⟩
            rcases hds with h | h
            · exact Or.inl (by rw [hstd]; exact h)
            · exact Or.inr (by rw [hstd]; exact h)
          · exfalso; apply hne
            rw [hstep,
              devState?_set_ne sys j i d XshmDevState.closed hij, hst] at hst'
            injection hst' with hst'
            exact hst'.symm
        · exfalso; apply hne
          have hstep : sysStep sys (SysEvt.closeDev j) = sys := by
            show (xshm_close sys j).2 = sys
            cases hs : d.state
            case closed => simp only [xshm_close, hd, hs]
            case opening => simp only [xshm_close, hd, hs]
            case opened => exact absurd (Or.inl hs) hds
            case active => exact absurd (Or.inr hs) hds
          rw [hstep, hst] at hst'
          injection hst' with hst'
          exact hst'.symm
    | remoteClose j =>
      cases hd : sys.devs.get? j with
      | none =>
        exfalso; apply hne
        have hstep : sysStep sys (SysEvt.remoteClose j) = sys := by
          simp only [sysStep, hd]
        rw [hstep, hst] at hst'
        injection hst' with hst'
        exact hst'.symm
      | some d =>
        by_cases hds : d.state = XshmDevState.opened
          ∨ d.state = XshmDevState.active
        · have hstep : sysStep sys (SysEvt.remoteClose j)
              = setDevState sys j d XshmDevState.closed := by
            simp only [sysStep, hd, if_pos hds]
          by_cases hij : j = i
          · subst hij
            rw [hstep,
              devState?_set_self sys j d XshmDevState.closed hd] at hst'
            injection hst' with hst'
            have hstd : st = d.state := devState?_some_state sys j d st hd hst
            right; right; right
            refine ⟨?_, hst'.symm, Or.inr rfl⟩
            rcases hds with h | h
            · exact Or.inl (by rw [hstd]; exact h)
            · exact Or.inr (by rw [hstd]; exact h)
          · exfalso; apply hne
            rw [hstep,
              devState?_set_ne sys j i d XshmDevState.closed hij, hst] at hst'
            injection hst' with hst'
            exact hst'.symm
        · exfalso; apply hne
          have hstep : sysStep sys (SysEvt.remoteClose j) = sys := by
            simp only [sysStep, hd, if_neg hds]
          rw [hstep, hst] at hst'
          injection hst' with hst'
          exact hst'.symm

/-- Concrete check of lifecycle_state_machine: closing the single Open
device is the Open→Closed edge by the closeDev event. -/
theorem lifecycle_state_machine_witness :
    (XshmDevState.closed ≠ XshmDevState.opened) ∧
    ((XshmDevState.opened = XshmDevState.closed ∧
        XshmDevState.closed = XshmDevState.opening ∧
        SysEvt.closeDev 0 = SysEvt.openDev 0) ∨
     (XshmDevState.opened = XshmDevState.opening ∧
        XshmDevState.closed = XshmDevState.opened ∧
        SysEvt.closeDev 0 = SysEvt.openConfirm 0) ∨
     (XshmDevState.opened = XshmDevState.opened ∧
        XshmDevState.closed = XshmDevState.active ∧
        SysEvt.closeDev 0 = SysEvt.firstTransfer 0) ∨
     ((XshmDevState.opened = XshmDevState.opened ∨
        XshmDevState.opened = XshmDevState.active) ∧
        XshmDevState.closed = XshmDevState.closed ∧
        (SysEvt.closeDev 0 = SysEvt.closeDev 0 ∨
          SysEvt.closeDev 0 = SysEvt.remoteClose 0))) :=
  ⟨by decide,
   (lifecycle_state_machine [] 0).2 oneOpenSys (SysEvt.closeDev 0)
     XshmDevState.opened XshmDevState.closed
     (by decide) (by decide) (by decide)⟩

/-- Claim C9: the framing mode of a duplex device is stored once, in the
single xshm_channel.mode field — struct xshm_udchannel has no mode of its
own — so the rx and tx directions always report the identical framing
mode, and a consistent configuration carries mode PACKET(1) or STREAM(2). -/
theorem framing_mode_per_device (c : XshmChannel) :
    rxFramingMode c = txFramingMode c ∧
    (validCfg c →
      c.mode = XSHM_PACKET_MODE ∨ c.mode = XSHM_STREAM_MODE) :=
  ⟨rfl, fun h => h.1⟩

/-- Concrete check of framing_mode_per_device on a valid configuration. -/
theorem framing_mode_per_device_witness :
    validCfg (cfgAt 9) ∧
    ((cfgAt 9).mode = XSHM_PACKET_MODE ∨
      (cfgAt 9).mode = XSHM_STREAM_MODE) :=
  ⟨by decide, (framing_mode_per_device (cfgAt 9)).2 (by decide)⟩

/-- Claim C10: every per-channel control word of the shared region — the
open flag, the read index, the write index and each buf_size entry, all
declared __le32 in the header — is a 32-bit little-endian quantity: its
encoding is exactly four bytes, least significant first, decoding recovers
the value modulo 2^32, and the shared open flag only ever takes the two
values XSHM_CLOSED = 0 and XSHM_OPEN = 1. -/
theorem shared_words_are_le32 (d : XshmDev) (v : Nat) :
    (le32_encode v).length = 4 ∧
    ((le32_encode v).all fun b => Nat.ble b 255) = true ∧
    le32_decode (le32_encode v) = v % 2 ^ 32 ∧
    (sharedOpenFlag d = XSHM_CLOSED ∨ sharedOpenFlag d = XSHM_OPEN) ∧
    XSHM_CLOSED = 0 ∧ XSHM_OPEN = 1 := by
  refine ⟨rfl, ?_, ?_, ?_, rfl, rfl⟩
  · simp only [le32_encode, List.all_cons, List.all_nil, Bool.and_eq_true,
      Nat.ble_eq]
    exact ⟨by omega, by omega, by omega, by omega, trivial⟩
  · show v % 256 + 256 * (v / 256 % 256) + 65536 * (v / 65536 % 256)
      + 16777216 * (v / 16777216 % 256) = v % 4294967296
    omega
  · unfold sharedOpenFlag
    split
    · exact Or.inl rfl
    · exact Or.inr rfl

end Xshm
